import Mathlib

/-!
# Verification of the `lerp` lookup-table engine (`lerp/mesh.py`)

A shallow embedding, over `ℚ`, of the query-conditioning, evaluation,
derivative and resampling layer of `lerp.mesh.Mesh`.  The Python layer
(`Mesh.__call__`, `Mesh.interpolation`, `Mesh.derivate`, `Mesh.resample`)
is translated from `src/lerp/mesh.py`.  The native evaluation routines
(`evaluate_interpolation`, `evaluate_derivative` from `libNDTable`,
compiled from `lerp/C/src/interpolation.c`) are not part of the sources;
where their behaviour is needed it is modelled from the specification,
as flagged in the corresponding doc comments.  Machine doubles are
modelled by exact rationals: every algorithm involved is a field
computation, so the rational model reproduces it without rounding.
-/

/-- The interpolation-method enumeration `INTERP_METH` of `mesh.py`
(`'hold nearest linear akima fritsch_butland steffen'`). -/
inductive INTERP_METH
  | hold
  | nearest
  | linear
  | akima
  | fritsch_butland
  | steffen
  deriving DecidableEq

/-- The extrapolation-method enumeration `EXTRAP_METH` of `mesh.py`
(`'hold linear'`). -/
inductive EXTRAP_METH
  | hold
  | linear
  deriving DecidableEq

/-- The grid data of a `Mesh`: the ordered dimension names (`self.dims`),
one breakpoint array per dimension (`self.coords`), and the data buffer
(`self.data`), addressed by multi-index. -/
structure MeshModel where
  dims : List String
  bps : List (List ℚ)
  data : List ℕ → ℚ

/-- Number of breakpoints `≤ x` — the resolved position of the binary
bracket search of the evaluation engine (index of the bracketing
interval is this count minus one, clamped). -/
def bracketCount (bp : List ℚ) (x : ℚ) : ℕ :=
  bp.countP (fun b => decide (b ≤ x))

/-- Last breakpoint of a dimension. -/
def lastBp (bp : List ℚ) : ℚ := bp.getD (bp.length - 1) 0

/-- Whether `x` lies below the first breakpoint or at/above the last one
(the out-of-range test of the engine's bracket search). -/
def outOfRange (bp : List ℚ) (x : ℚ) : Bool :=
  decide (x < bp.headD 0) || decide (lastBp bp ≤ x)

/-- Clamping a coordinate to the breakpoint range (`hold` extrapolation). -/
def clampCoord (bp : List ℚ) (x : ℚ) : ℚ :=
  max (bp.headD 0) (min x (lastBp bp))

/-- Effective coordinate after the extrapolation policy: `hold` clamps an
out-of-range coordinate to the nearest boundary, `linear` keeps it. -/
def effCoord (em : EXTRAP_METH) (bp : List ℚ) (x : ℚ) : ℚ :=
  if outOfRange bp x ∧ em = EXTRAP_METH.hold then clampCoord bp x else x

/-- Effective interpolation method: out of range under `linear`
extrapolation, every method extends linearly from the boundary interval. -/
def effMeth (im : INTERP_METH) (em : EXTRAP_METH) (bp : List ℚ) (x : ℚ) :
    INTERP_METH :=
  if outOfRange bp x ∧ em = EXTRAP_METH.linear then INTERP_METH.linear else im

/-- Lower index of the bracketing interval for `x` (clamped to the
outermost interval `length − 2` for points at/above the last breakpoint,
and to `0` for points below the first one). -/
def lowIdx (bp : List ℚ) (x : ℚ) : ℕ :=
  min (bracketCount bp x - 1) (bp.length - 2)

/-- Sample index used by `hold` interpolation: the lower corner of the
bracketing cell (`length − 1` when the coordinate sits at/above the last
breakpoint, so that clamped extrapolation returns the boundary sample). -/
def holdIdx (bp : List ℚ) (x : ℚ) : ℕ :=
  min (bracketCount bp x - 1) (bp.length - 1)

/-- Fractional position of `x` inside its bracketing interval. -/
def fracPos (bp : List ℚ) (x : ℚ) : ℚ :=
  (x - bp.getD (lowIdx bp x) 0) /
    (bp.getD (lowIdx bp x + 1) 0 - bp.getD (lowIdx bp x) 0)

/-- Corner chosen by `nearest` interpolation: whichever end of the
bracketing interval is closer, ties toward the lower index. -/
def nearIdx (bp : List ℚ) (x : ℚ) : ℕ :=
  if x - bp.getD (lowIdx bp x) 0 ≤ bp.getD (lowIdx bp x + 1) 0 - x then
    lowIdx bp x
  else lowIdx bp x + 1

/-- Modelled from the spec: the native `evaluate_interpolation` routine of
`libNDTable` (its C source `lerp/C/src/interpolation.c` is not among the
repository sources).  One query point is evaluated dimension by
dimension: bracket search, extrapolation policy (`hold` clamps the
coordinate, `linear` applies the linear law of the outermost interval),
then the interpolation method combines the corner sub-evaluations —
`hold` takes the lower corner, `nearest` the closer corner, `linear` the
convex blend.  The three cubic families (`akima`, `fritsch_butland`,
`steffen`) are not exercised by any claim and are given the linear
blend here.  A dimension with a single breakpoint degenerates to its
only sample. -/
def combineDim (meth : INTERP_METH) (bp : List ℚ) (xe : ℚ) (f : ℕ → ℚ) : ℚ :=
  match meth with
  | INTERP_METH.hold => f (holdIdx bp xe)
  | INTERP_METH.nearest => f (nearIdx bp xe)
  | _ =>
      (1 - fracPos bp xe) * f (lowIdx bp xe)
        + fracPos bp xe * f (lowIdx bp xe + 1)

/-- Modelled from the spec: dimension-by-dimension evaluation of one
query point — bracket search, extrapolation policy, then `combineDim`
over the recursively evaluated sub-grids. -/
def NDT_eval (im : INTERP_METH) (em : EXTRAP_METH) :
    List (List ℚ) → (List ℕ → ℚ) → List ℚ → ℚ
  | [], data, _ => data []
  | bp :: rest, data, xs0 =>
    if bp.length ≤ 1 then
      NDT_eval im em rest (fun idx => data (0 :: idx)) xs0.tail
    else
      combineDim (effMeth im em bp (xs0.headD 0)) bp
        (effCoord em bp (xs0.headD 0))
        (fun i => NDT_eval im em rest (fun idx => data (i :: idx)) xs0.tail)

/-- A query argument of `Mesh.interpolation` / `Mesh.derivate`: either a
scalar or a one-dimensional array (an object with `__len__`). -/
inductive Arg
  | scalar (v : ℚ)
  | array (vs : List ℚ)

/-- `len(arg)` for arrays, `1` for scalars — the entries of the `dims`
length vector computed by `Mesh.interpolation`. -/
def argLen : Arg → ℕ
  | Arg.scalar _ => 1
  | Arg.array vs => vs.length

/-- Conversion of one argument in `Mesh.interpolation`:
`np.asarray(a)` for an array (kept at its own length),
`np.ones((max(dims),)) * a` for a scalar (replicated to the broadcast
length). -/
def argToList (nmax : ℕ) : Arg → List ℚ
  | Arg.scalar v => List.replicate nmax v
  | Arg.array vs => vs

/-- `kwargs[d]` lookup (`_x in kwargs`). -/
def kwLookup {α : Type} (kwargs : List (String × α)) (d : String) : Option α :=
  (kwargs.find? (fun p => decide (p.1 = d))).map Prod.snd

/-- `len(set(self.dims) & set(kwargs))`: the number of grid dimensions
named by a keyword argument (dimension names are distinct, so counting
over `dims` realizes the set intersection). -/
def namedDimCount {α : Type} (dims : List String) (kwargs : List (String × α)) : ℕ :=
  (dims.filter (fun d => (kwLookup kwargs d).isSome)).length

/-- The argument dict comprehension of `Mesh.interpolation` /
`Mesh.derivate`: for each dimension in order, take the keyword argument
when present, else pop the next positional argument.  Popping from an
exhausted positional list (a Python `IndexError`) cannot happen once the
arity assertion has passed; the model skips the dimension in that
unreachable case. -/
def buildArgs : List String → List Arg → List (String × Arg) → List Arg
  | [], _, _ => []
  | d :: ds, pts, kw =>
    match kwLookup kw d with
    | some a => a :: buildArgs ds pts kw
    | none =>
      match pts with
      | p :: ps => p :: buildArgs ds ps kw
      | [] => buildArgs ds [] kw

/-- The two assertion failures of the query layer: the arity assertion
`len(set(self.dims) & set(kwargs)) + len(points) == self.ndim` and the
broadcast assertion `all((dims == max(dims)) + (dims == 1))`. -/
inductive EvalError
  | arity
  | broadcast
  deriving DecidableEq

/-- `max(dims)`: the common broadcast length `N`. -/
def maxLen (args : List Arg) : ℕ :=
  (args.map argLen).foldr max 0

/-- The broadcast assertion `all((dims == max(dims)) + (dims == 1))`
(`+` on numpy boolean arrays is elementwise disjunction). -/
def broadcastOk (args : List Arg) : Bool :=
  (args.map argLen).all (fun l => l == maxLen args || l == 1)

/-- The argument-conditioning prefix shared by `Mesh.interpolation` and
`Mesh.derivate`: arity assertion, argument resolution, broadcast
assertion, then conversion of each argument to an array (scalars
replicated to `max(dims)`, arrays kept as they are). -/
def conditionArgs (m : MeshModel) (points : List Arg)
    (kwargs : List (String × Arg)) : Except EvalError (List (List ℚ)) :=
  if namedDimCount m.dims kwargs + points.length ≠ m.dims.length then
    Except.error EvalError.arity
  else
    let args := buildArgs m.dims points kwargs
    if broadcastOk args then
      Except.ok (args.map (argToList (maxLen args)))
    else Except.error EvalError.broadcast

/-- The output buffer of `Mesh.interpolation`:
`values = np.empty(args[0].shape)` filled by the native routine with one
evaluation per entry, reading the `i`-th coordinate of every conditioned
argument (an out-of-bounds read of a shorter argument array by the
native code is modelled as the default `0`; no claim depends on those
values). -/
def evalPoints (m : MeshModel) (cargs : List (List ℚ))
    (im : INTERP_METH) (em : EXTRAP_METH) : List ℚ :=
  (List.range (cargs.headD []).length).map
    (fun i => NDT_eval im em m.bps m.data (cargs.map (fun a => a.getD i 0)))

/-- `return values[0] if len(values) == 1 else values`. -/
def packResult (values : List ℚ) : Sum ℚ (List ℚ) :=
  if values.length = 1 then Sum.inl (values.headD 0) else Sum.inr values

/-- Number of outputs carried by a packed result (a scalar is one output). -/
def resultCount : Sum ℚ (List ℚ) → ℕ
  | Sum.inl _ => 1
  | Sum.inr l => l.length

/-- `Mesh.interpolation(*points, interp, extrap, **kwargs)`. -/
def interpolationModel (m : MeshModel) (points : List Arg)
    (kwargs : List (String × Arg)) (im : INTERP_METH) (em : EXTRAP_METH) :
    Except EvalError (Sum ℚ (List ℚ)) :=
  (conditionArgs m points kwargs).map
    (fun cargs => packResult (evalPoints m cargs im em))

/-- The default finite-difference steps of `Mesh.derivate`:
`dxi = [np.ones_like(_x) for _x in args]` (the method accepts no
caller-supplied steps at all). -/
def derivSteps (cargs : List (List ℚ)) : List (List ℚ) :=
  cargs.map (fun a => a.map (fun _ => (1 : ℚ)))

/-- Modelled from the spec: the native `evaluate_derivative` routine of
`libNDTable` (absent from the repository sources).  The spec's preferred
analytic blend-weight derivative of the `linear` law is modelled: the
directional derivative of the multilinear interpolant along the supplied
step vector.  No claim depends on these values. -/
def NDT_evalDeriv (im : INTERP_METH) (em : EXTRAP_METH) :
    List (List ℚ) → (List ℕ → ℚ) → List ℚ → List ℚ → ℚ
  | [], _, _, _ => 0
  | bp :: rest, data, xs0, dxs0 =>
    if bp.length ≤ 1 then
      NDT_evalDeriv im em rest (fun idx => data (0 :: idx)) xs0.tail dxs0.tail
    else
      let x := xs0.headD 0
      let xe := effCoord em bp x
      let i := lowIdx bp xe
      (NDT_eval im em rest (fun idx => data ((i + 1) :: idx)) xs0.tail
            - NDT_eval im em rest (fun idx => data (i :: idx)) xs0.tail) /
          (bp.getD (i + 1) 0 - bp.getD i 0) * dxs0.headD 0
        + (1 - fracPos bp xe) *
            NDT_evalDeriv im em rest (fun idx => data (i :: idx)) xs0.tail dxs0.tail
        + fracPos bp xe *
            NDT_evalDeriv im em rest (fun idx => data ((i + 1) :: idx)) xs0.tail dxs0.tail

/-- `Mesh.derivate(*points, interp, extrap, **kwargs)`: same conditioning
as `Mesh.interpolation`, unit finite-difference steps, then the native
derivative routine. -/
def derivateModel (m : MeshModel) (points : List Arg)
    (kwargs : List (String × Arg)) (im : INTERP_METH) (em : EXTRAP_METH) :
    Except EvalError (Sum ℚ (List ℚ)) :=
  (conditionArgs m points kwargs).map
    (fun cargs => packResult
      ((List.range (cargs.headD []).length).map
        (fun i => NDT_evalDeriv im em m.bps m.data
          (cargs.map (fun a => a.getD i 0))
          ((derivSteps cargs).map (fun a => a.getD i 0)))))

/-- `Mesh.interpolation` with its keyword defaults applied: an omitted
`interp` keyword means `'linear'`, an omitted `extrap` keyword means
`'hold'` (the defaults of the method signature). -/
def interpolationCall (m : MeshModel) (points : List Arg)
    (kwargs : List (String × Arg)) (im? : Option INTERP_METH)
    (em? : Option EXTRAP_METH) : Except EvalError (Sum ℚ (List ℚ)) :=
  interpolationModel m points kwargs (im?.getD INTERP_METH.linear)
    (em?.getD EXTRAP_METH.hold)

/-- Constructor default of the `extrapolate` option of `Mesh.__init__`. -/
def defaultOptionExtrapolate : Bool := true

/-- Constructor default of the `step` option of `Mesh.__init__`. -/
def defaultOptionStep : Bool := false

/-- `Mesh.__call__`: with the `step` option, force
`interp='hold', extrap='hold'` and drop caller-supplied methods; with
the `extrapolate` option and no explicit `extrap` keyword, request
`extrap='linear'`; otherwise pass the caller's keywords through. -/
def meshCall (m : MeshModel) (extrapolate step : Bool) (points : List Arg)
    (kwargs : List (String × Arg)) (im? : Option INTERP_METH)
    (em? : Option EXTRAP_METH) : Except EvalError (Sum ℚ (List ℚ)) :=
  if step then
    interpolationCall m points kwargs (some INTERP_METH.hold)
      (some EXTRAP_METH.hold)
  else if extrapolate ∧ em? = none then
    interpolationCall m points kwargs im? (some EXTRAP_METH.linear)
  else interpolationCall m points kwargs im? em?

/-- The 1-D grid of the spec's concrete scenario: breakpoints
`[0, 1, 2, 3]`, data `[0, 1, 4, 9]`. -/
def mesh1ex : MeshModel where
  dims := ["x"]
  bps := [[0, 1, 2, 3]]
  data := fun idx => ([0, 1, 4, 9] : List ℚ).getD (idx.headD 0) 0


/-- A 2-D grid: breakpoints `x = [0, 1]`, `y = [0, 1]`, data
`[[0, 1], [2, 3]]`. -/
def mesh2ex : MeshModel where
  dims := ["x", "y"]
  bps := [[0, 1], [0, 1]]
  data := fun idx =>
    (([[0, 1], [2, 3]] : List (List ℚ)).getD (idx.headD 0) []).getD
      (idx.tail.headD 0) 0

/-- One layer of the cartesian product: every element of `xs` consed onto
every tail, tails varying fastest (row-major order, as produced by
`np.meshgrid(..., indexing='ij')` and traversed flat by the native
routine). -/
def prodCons (xs : List ℚ) (tails : List (List ℚ)) : List (List ℚ) :=
  match xs with
  | [] => []
  | x :: xs' => tails.map (fun t => x :: t) ++ prodCons xs' tails

/-- The dense mesh of all per-dimension coordinate arrays, in row-major
order. -/
def mgrid : List (List ℚ) → List (List ℚ)
  | [] => [[]]
  | a :: rest => prodCons a (mgrid rest)

/-- Row-major flat offset of a multi-index in a tensor of the given
shape. -/
def flatIdx : List ℕ → List ℕ → ℕ
  | _ :: ss, j :: js => j * ss.foldr (fun a b => a * b) 1 + flatIdx ss js
  | _, _ => 0

/-- The argument resolution of `Mesh.resample`: for each dimension in
order, the keyword argument when present, else the next positional
argument, else (`IndexError` branch) the grid's own breakpoints for that
dimension. -/
def buildResampleArgs : List String → List (List ℚ) → List (List ℚ) →
    List (String × List ℚ) → List (List ℚ)
  | [], _, _, _ => []
  | d :: ds, bps0, pts, kw =>
    match kwLookup kw d with
    | some a => a :: buildResampleArgs ds bps0.tail pts kw
    | none =>
      match pts with
      | p :: ps => p :: buildResampleArgs ds bps0.tail ps kw
      | [] => bps0.headD [] :: buildResampleArgs ds bps0.tail [] kw

/-- The well-formed resampled mesh `Mesh(nv, **args)` built when the
value tensor of `self.interpolation(*mg, ...)` keeps all its axes: the
breakpoints are the resolved coordinate arrays and the data at a
multi-index is the flat row-major value buffer re-indexed. -/
def resamplePack (m : MeshModel) (args : List (List ℚ)) (im : INTERP_METH)
    (em : EXTRAP_METH) : MeshModel :=
  { dims := m.dims
    bps := args
    data := fun idx =>
      ((mgrid args).map (fun p => NDT_eval im em m.bps m.data p)).getD
        (flatIdx (args.map List.length) idx) 0 }

/-- `Mesh.resample(*points, interp, extrap, **kwargs)`: resolve one
coordinate array per dimension, evaluate the grid over their dense
cartesian mesh (`np.meshgrid(..., indexing='ij')` passed to
`self.interpolation`, whose native routine traverses the mesh arrays
flat in row-major order), and pack the values into a new mesh
(`Mesh(nv, **args)`) whose breakpoints are the resolved coordinate
arrays.  The value tensor has the shape of the first meshgrid array, so
`len(values)` is the length of the first resolved coordinate array;
when that length is `1`, `interpolation`'s `values[0] if
len(values) == 1` unwrap drops the leading axis and the `Mesh`
constructor then raises a shape `ValueError` (the data has one
dimension fewer than the coordinates).  That failure is modelled as
`none`. -/
def resampleModel (m : MeshModel) (points : List (List ℚ))
    (kwargs : List (String × List ℚ)) (im : INTERP_METH) (em : EXTRAP_METH) :
    Option MeshModel :=
  let args := buildResampleArgs m.dims m.bps points kwargs
  if (args.headD []).length = 1 then none
  else some (resamplePack m args im em)

/-- A 1-D grid with a single breakpoint (legal: breakpoint sequences have
length ≥ 1). -/
def mesh1pt : MeshModel where
  dims := ["x"]
  bps := [[0]]
  data := fun _ => 7

/-! ## Theorems -/

/-- C2: on the 1-D grid with breakpoints `[0,1,2,3]` and data `[0,1,4,9]`,
linear interpolation at `x = 1.5` returns `2.5`; with hold extrapolation
at `x = 5` it returns `9`; with linear extrapolation at `x = 5` it
returns `19`. -/
theorem concrete_1d_scenario :
    interpolationModel mesh1ex [Arg.scalar (3 / 2)] [] INTERP_METH.linear
        EXTRAP_METH.hold = Except.ok (Sum.inl (5 / 2))
    ∧ interpolationModel mesh1ex [Arg.scalar 5] [] INTERP_METH.linear
        EXTRAP_METH.hold = Except.ok (Sum.inl 9)
    ∧ interpolationModel mesh1ex [Arg.scalar 5] [] INTERP_METH.linear
        EXTRAP_METH.linear = Except.ok (Sum.inl 19) := by
  have h32 : conditionArgs mesh1ex [Arg.scalar (3 / 2)] [] =
      Except.ok [[3 / 2]] := by
    simp [conditionArgs, namedDimCount, buildArgs, kwLookup, broadcastOk,
      maxLen, argLen, argToList, mesh1ex]
  have h5 : conditionArgs mesh1ex [Arg.scalar 5] [] = Except.ok [[5]] := by
    simp [conditionArgs, namedDimCount, buildArgs, kwLookup, broadcastOk,
      maxLen, argLen, argToList, mesh1ex]
  refine ⟨?_, ?_, ?_⟩
  · rw [interpolationModel, h32]
    simp [Except.map, evalPoints, packResult, NDT_eval, combineDim, effCoord,
      effMeth, outOfRange, lastBp, clampCoord, lowIdx, holdIdx, fracPos, nearIdx,
      bracketCount, mesh1ex, List.range_succ]
    norm_num
  · rw [interpolationModel, h5]
    simp [Except.map, evalPoints, packResult, NDT_eval, combineDim, effCoord,
      effMeth, outOfRange, lastBp, clampCoord, lowIdx, holdIdx, fracPos, nearIdx,
      bracketCount, mesh1ex, List.range_succ]
    norm_num
  · rw [interpolationModel, h5]
    simp [Except.map, evalPoints, packResult, NDT_eval, combineDim, effCoord,
      effMeth, outOfRange, lastBp, clampCoord, lowIdx, holdIdx, fracPos, nearIdx,
      bracketCount, mesh1ex, List.range_succ]
    norm_num

/-- C8: with the `extrapolate` option on (the constructor default) and
the `step` option off, calling the mesh without an explicit `extrap`
keyword evaluates with linear extrapolation; `Mesh.interpolation` called
without explicit method keywords defaults to linear interpolation with
hold extrapolation. -/
theorem call_default_methods (m : MeshModel) (pts : List Arg)
    (kw : List (String × Arg)) (im? : Option INTERP_METH) :
    meshCall m true false pts kw im? none =
      interpolationModel m pts kw (im?.getD INTERP_METH.linear)
        EXTRAP_METH.linear
    ∧ interpolationCall m pts kw none none =
      interpolationModel m pts kw INTERP_METH.linear EXTRAP_METH.hold
    ∧ defaultOptionExtrapolate = true ∧ defaultOptionStep = false := by
  refine ⟨?_, rfl, rfl, rfl⟩
  simp [meshCall, interpolationCall]

/-- C10: with the `step` option on, calling the mesh discards any
caller-supplied `interp`/`extrap` keywords and always evaluates with
hold interpolation and hold extrapolation. -/
theorem step_option_forces_hold (m : MeshModel) (extrapolate : Bool)
    (pts : List Arg) (kw : List (String × Arg)) (im? : Option INTERP_METH)
    (em? : Option EXTRAP_METH) :
    meshCall m extrapolate true pts kw im? em? =
      interpolationModel m pts kw INTERP_METH.hold EXTRAP_METH.hold := by
  simp [meshCall, interpolationCall]

/-- A keyword lookup succeeds exactly when the name occurs among the
keyword keys. -/
theorem kwLookup_isSome {α : Type} (kw : List (String × α)) (d : String) :
    (kwLookup kw d).isSome ↔ d ∈ kw.map Prod.fst := by
  simp only [kwLookup, Option.isSome_map', List.find?_isSome, List.mem_map,
    decide_eq_true_eq]

/-- Counting the members of one duplicate-free list inside another is
symmetric (the cardinality of the set intersection). -/
theorem filter_mem_length_comm (A B : List String) (hA : A.Nodup)
    (hB : B.Nodup) :
    (A.filter (fun d => decide (d ∈ B))).length =
      (B.filter (fun d => decide (d ∈ A))).length := by
  have h1 : (A.filter (fun d => decide (d ∈ B))).toFinset =
      A.toFinset ∩ B.toFinset := by
    ext a
    simp [List.mem_filter]
  have h2 : (B.filter (fun d => decide (d ∈ A))).toFinset =
      A.toFinset ∩ B.toFinset := by
    ext a
    simp [List.mem_filter]
    tauto
  rw [← List.toFinset_card_of_nodup (hA.filter _),
    ← List.toFinset_card_of_nodup (hB.filter _), h1, h2]

/-- `len(set(dims) & set(kwargs))` counts exactly the keyword arguments
whose name is a grid dimension. -/
theorem namedDimCount_eq {α : Type} (dims : List String)
    (kw : List (String × α)) (hd : dims.Nodup) (hk : (kw.map Prod.fst).Nodup) :
    namedDimCount dims kw =
      (kw.filter (fun p => decide (p.1 ∈ dims))).length := by
  unfold namedDimCount
  have h1 : dims.filter (fun d => (kwLookup kw d).isSome) =
      dims.filter (fun d => decide (d ∈ kw.map Prod.fst)) := by
    apply List.filter_congr
    intro d _
    rw [Bool.eq_iff_iff]
    simp [kwLookup_isSome]
  rw [h1, filter_mem_length_comm dims (kw.map Prod.fst) hd hk,
    List.filter_map, List.length_map]
  rfl

/-- `conditionArgs` reports the arity failure exactly when the argument
count differs from the number of grid dimensions. -/
theorem conditionArgs_error_arity_iff (m : MeshModel) (pts : List Arg)
    (kw : List (String × Arg)) :
    conditionArgs m pts kw = Except.error EvalError.arity ↔
      namedDimCount m.dims kw + pts.length ≠ m.dims.length := by
  by_cases hC : namedDimCount m.dims kw + pts.length ≠ m.dims.length
  · unfold conditionArgs
    rw [if_pos hC]
    simp [hC]
  · unfold conditionArgs
    rw [if_neg hC]
    simp only [hC, iff_false]
    split <;> simp

/-- C3: an interpolation or derivative call fails with the arity
assertion, before any numeric work, exactly when the number of supplied
coordinate arguments — positional plus keyword arguments naming a grid
dimension — differs from the number of grid dimensions. -/
theorem arity_gate (m : MeshModel) (pts : List Arg) (kw : List (String × Arg))
    (im : INTERP_METH) (em : EXTRAP_METH) (hd : m.dims.Nodup)
    (hk : (kw.map Prod.fst).Nodup) :
    (interpolationModel m pts kw im em = Except.error EvalError.arity ↔
      pts.length + (kw.filter (fun p => decide (p.1 ∈ m.dims))).length ≠
        m.dims.length)
    ∧ (derivateModel m pts kw im em = Except.error EvalError.arity ↔
      pts.length + (kw.filter (fun p => decide (p.1 ∈ m.dims))).length ≠
        m.dims.length) := by
  have hcond : conditionArgs m pts kw = Except.error EvalError.arity ↔
      pts.length + (kw.filter (fun p => decide (p.1 ∈ m.dims))).length ≠
        m.dims.length := by
    rw [conditionArgs_error_arity_iff, namedDimCount_eq m.dims kw hd hk,
      Nat.add_comm]
  constructor
  · rw [← hcond]
    cases h : conditionArgs m pts kw <;>
      simp [interpolationModel, Except.map, h]
  · rw [← hcond]
    cases h : conditionArgs m pts kw <;>
      simp [derivateModel, Except.map, h]

/-- C3 witness: a 2-D grid queried with a single positional scalar and no
keyword arguments fails the arity gate. -/
theorem arity_gate_witness :
    (interpolationModel mesh2ex [Arg.scalar 0] [] INTERP_METH.linear
        EXTRAP_METH.hold = Except.error EvalError.arity ↔
      ([Arg.scalar 0] : List Arg).length +
          (([] : List (String × Arg)).filter
            (fun p => decide (p.1 ∈ mesh2ex.dims))).length ≠
        mesh2ex.dims.length)
    ∧ (derivateModel mesh2ex [Arg.scalar 0] [] INTERP_METH.linear
        EXTRAP_METH.hold = Except.error EvalError.arity ↔
      ([Arg.scalar 0] : List Arg).length +
          (([] : List (String × Arg)).filter
            (fun p => decide (p.1 ∈ mesh2ex.dims))).length ≠
        mesh2ex.dims.length) :=
  arity_gate mesh2ex [Arg.scalar 0] [] INTERP_METH.linear EXTRAP_METH.hold
    (by decide) (by decide)

/-- C4: when some coordinate argument's length is neither `1` nor the
maximum argument length, a query that passed the arity gate fails with
the broadcast assertion and produces no output. -/
theorem broadcast_gate (m : MeshModel) (pts : List Arg)
    (kw : List (String × Arg)) (im : INTERP_METH) (em : EXTRAP_METH) (a : Arg)
    (hmem : a ∈ buildArgs m.dims pts kw) (h1 : argLen a ≠ 1)
    (hN : argLen a ≠ maxLen (buildArgs m.dims pts kw))
    (harity : namedDimCount m.dims kw + pts.length = m.dims.length) :
    interpolationModel m pts kw im em = Except.error EvalError.broadcast
    ∧ derivateModel m pts kw im em = Except.error EvalError.broadcast := by
  have hcond : conditionArgs m pts kw = Except.error EvalError.broadcast := by
    unfold conditionArgs
    rw [if_neg (fun h => h harity), if_neg ?hb]
    case hb =>
      intro hall
      rw [broadcastOk, List.all_eq_true] at hall
      have hx := hall (argLen a) (List.mem_map_of_mem argLen hmem)
      simp only [Bool.or_eq_true, beq_iff_eq] at hx
      rcases hx with hx | hx
      · exact hN hx
      · exact h1 hx
  exact ⟨by simp [interpolationModel, hcond, Except.map],
    by simp [derivateModel, hcond, Except.map]⟩

/-- C4 witness: a 2-D grid queried with arrays of lengths `2` and `3`
fails the broadcast assertion in both operations. -/
theorem broadcast_gate_witness :
    interpolationModel mesh2ex [Arg.array [0, 1], Arg.array [0, 1, 2]] []
        INTERP_METH.linear EXTRAP_METH.hold =
      Except.error EvalError.broadcast
    ∧ derivateModel mesh2ex [Arg.array [0, 1], Arg.array [0, 1, 2]] []
        INTERP_METH.linear EXTRAP_METH.hold =
      Except.error EvalError.broadcast :=
  broadcast_gate mesh2ex [Arg.array [0, 1], Arg.array [0, 1, 2]] []
    INTERP_METH.linear EXTRAP_METH.hold (Arg.array [0, 1])
    (by simp [buildArgs, kwLookup, mesh2ex]) (by simp [argLen])
    (by simp [argLen, maxLen, buildArgs, kwLookup, mesh2ex])
    (by simp [namedDimCount, kwLookup, mesh2ex])

/-- A successful `conditionArgs` is exactly: the arity gate passed, the
broadcast gate passed, and every argument was converted by `argToList`
at the broadcast length. -/
theorem conditionArgs_ok_iff (m : MeshModel) (pts : List Arg)
    (kw : List (String × Arg)) (cargs : List (List ℚ)) :
    conditionArgs m pts kw = Except.ok cargs ↔
      namedDimCount m.dims kw + pts.length = m.dims.length
      ∧ broadcastOk (buildArgs m.dims pts kw) = true
      ∧ cargs = (buildArgs m.dims pts kw).map
          (argToList (maxLen (buildArgs m.dims pts kw))) := by
  unfold conditionArgs
  by_cases hC : namedDimCount m.dims kw + pts.length ≠ m.dims.length
  · rw [if_pos hC]
    simp [hC]
  · rw [if_neg hC]
    rw [not_not] at hC
    by_cases hB : broadcastOk (buildArgs m.dims pts kw) = true
    · rw [if_pos hB]
      simp [hC, hB, eq_comm]
    · rw [if_neg hB]
      simp [hC, hB]

/-- The number of outputs of a packed result is the number of computed
values (a scalar counts as one output). -/
theorem resultCount_packResult (v : List ℚ) :
    resultCount (packResult v) = v.length := by
  unfold packResult
  split
  · rename_i h
    simp [resultCount, h]
  · simp [resultCount]

/-- The output buffer has the length of the first conditioned argument
(`values = np.empty(args[0].shape)`). -/
theorem evalPoints_length (m : MeshModel) (cargs : List (List ℚ))
    (im : INTERP_METH) (em : EXTRAP_METH) :
    (evalPoints m cargs im em).length = (cargs.headD []).length := by
  simp [evalPoints]

/-- C1 (amended): after conditioning, scalar arguments are replicated to
the broadcast length `N = max(dims)` while array arguments — including
length-1 arrays — keep their own length, and the number of outputs
equals the length of the first dimension's conditioned argument (not
necessarily `N`). -/
theorem broadcast_replication (m : MeshModel) (pts : List Arg)
    (kw : List (String × Arg)) (im : INTERP_METH) (em : EXTRAP_METH)
    (cargs : List (List ℚ)) (h : conditionArgs m pts kw = Except.ok cargs) :
    List.Forall₂ (fun a c =>
        (∀ v, a = Arg.scalar v →
          c = List.replicate (maxLen (buildArgs m.dims pts kw)) v)
        ∧ (∀ vs, a = Arg.array vs → c = vs))
      (buildArgs m.dims pts kw) cargs
    ∧ interpolationModel m pts kw im em =
        Except.ok (packResult (evalPoints m cargs im em))
    ∧ resultCount (packResult (evalPoints m cargs im em)) =
        (cargs.headD []).length := by
  obtain ⟨-, -, hc⟩ := (conditionArgs_ok_iff m pts kw cargs).mp h
  refine ⟨?_, ?_, ?_⟩
  · subst hc
    rw [List.forall₂_map_right_iff]
    apply List.forall₂_same.mpr
    intro a _
    constructor
    · rintro v rfl
      rfl
    · rintro vs rfl
      rfl
  · simp [interpolationModel, h, Except.map]
  · rw [resultCount_packResult, evalPoints_length]

/-- C1 counterexample: on a 2-D grid, the query `([0], [0, 0, 0])` passes
both gates with broadcast length `N = 3`, yet the length-1 array
argument is not replicated to length `3` and the call returns a single
scalar rather than `3` outputs. -/
theorem broadcast_replication_cex :
    conditionArgs mesh2ex [Arg.array [0], Arg.array [0, 0, 0]] [] =
      Except.ok [[0], [0, 0, 0]]
    ∧ maxLen (buildArgs mesh2ex.dims [Arg.array [0], Arg.array [0, 0, 0]] [])
        = 3
    ∧ ¬ (∀ c ∈ ([[0], [0, 0, 0]] : List (List ℚ)), c.length = 3)
    ∧ interpolationModel mesh2ex [Arg.array [0], Arg.array [0, 0, 0]] []
        INTERP_METH.linear EXTRAP_METH.hold = Except.ok (Sum.inl 0) := by
  have h : conditionArgs mesh2ex [Arg.array [0], Arg.array [0, 0, 0]] [] =
      Except.ok [[0], [0, 0, 0]] := by
    simp [conditionArgs, namedDimCount, buildArgs, kwLookup, broadcastOk,
      maxLen, argLen, argToList, mesh2ex]
  refine ⟨h, ?_, ?_, ?_⟩
  · simp [maxLen, buildArgs, kwLookup, argLen, mesh2ex]
  · intro hall
    have := hall [0] (by simp)
    simp at this
  · rw [interpolationModel, h]
    simp [Except.map, evalPoints, packResult, NDT_eval, combineDim, effCoord,
      effMeth, outOfRange, lastBp, clampCoord, lowIdx, holdIdx, fracPos, nearIdx,
      bracketCount, mesh2ex, List.range_succ]

/-- C1 witness: the 1-D scalar query `x = 3/2` conditions to the single
replicated array `[[3/2]]` and yields one output. -/
theorem broadcast_replication_witness :
    List.Forall₂ (fun a c =>
        (∀ v, a = Arg.scalar v →
          c = List.replicate
            (maxLen (buildArgs mesh1ex.dims [Arg.scalar (3 / 2)] [])) v)
        ∧ (∀ vs, a = Arg.array vs → c = vs))
      (buildArgs mesh1ex.dims [Arg.scalar (3 / 2)] []) [[3 / 2]]
    ∧ interpolationModel mesh1ex [Arg.scalar (3 / 2)] [] INTERP_METH.linear
        EXTRAP_METH.hold =
      Except.ok (packResult
        (evalPoints mesh1ex [[3 / 2]] INTERP_METH.linear EXTRAP_METH.hold))
    ∧ resultCount (packResult
        (evalPoints mesh1ex [[3 / 2]] INTERP_METH.linear EXTRAP_METH.hold)) =
      (([[3 / 2]] : List (List ℚ)).headD []).length :=
  broadcast_replication mesh1ex [Arg.scalar (3 / 2)] [] INTERP_METH.linear
    EXTRAP_METH.hold [[3 / 2]]
    (by simp [conditionArgs, namedDimCount, buildArgs, kwLookup, broadcastOk,
      maxLen, argLen, argToList, mesh1ex])

/-- C7 (amended): a successful call returns a single scalar exactly when
the first conditioned argument has length `1` (not when the broadcast
length `N` is `1`), and otherwise an array whose length is the first
conditioned argument's length. -/
theorem result_shape (m : MeshModel) (pts : List Arg)
    (kw : List (String × Arg)) (im : INTERP_METH) (em : EXTRAP_METH)
    (cargs : List (List ℚ)) (h : conditionArgs m pts kw = Except.ok cargs) :
    ((cargs.headD []).length = 1 →
      interpolationModel m pts kw im em =
        Except.ok (Sum.inl ((evalPoints m cargs im em).headD 0)))
    ∧ ((cargs.headD []).length ≠ 1 →
      interpolationModel m pts kw im em =
        Except.ok (Sum.inr (evalPoints m cargs im em))
      ∧ (evalPoints m cargs im em).length = (cargs.headD []).length) := by
  have hm : interpolationModel m pts kw im em =
      Except.ok (packResult (evalPoints m cargs im em)) := by
    simp [interpolationModel, h, Except.map]
  have hl : (evalPoints m cargs im em).length = (cargs.headD []).length :=
    evalPoints_length m cargs im em
  constructor
  · intro h1
    rw [hm, packResult, if_pos (hl.trans h1)]
  · intro h1
    refine ⟨?_, hl⟩
    rw [hm, packResult, if_neg (fun hc => h1 (hl.symm.trans hc))]

/-- C7 witness: a 1-D query with a length-2 array returns an array of
length 2, and would return a scalar only for a length-1 first argument. -/
theorem result_shape_witness :
    ((([[1 / 2, 5 / 2]] : List (List ℚ)).headD []).length = 1 →
      interpolationModel mesh1ex [Arg.array [1 / 2, 5 / 2]] []
          INTERP_METH.linear EXTRAP_METH.hold =
        Except.ok (Sum.inl ((evalPoints mesh1ex [[1 / 2, 5 / 2]]
          INTERP_METH.linear EXTRAP_METH.hold).headD 0)))
    ∧ ((([[1 / 2, 5 / 2]] : List (List ℚ)).headD []).length ≠ 1 →
      interpolationModel mesh1ex [Arg.array [1 / 2, 5 / 2]] []
          INTERP_METH.linear EXTRAP_METH.hold =
        Except.ok (Sum.inr (evalPoints mesh1ex [[1 / 2, 5 / 2]]
          INTERP_METH.linear EXTRAP_METH.hold))
      ∧ (evalPoints mesh1ex [[1 / 2, 5 / 2]] INTERP_METH.linear
          EXTRAP_METH.hold).length =
        (([[1 / 2, 5 / 2]] : List (List ℚ)).headD []).length) :=
  result_shape mesh1ex [Arg.array [1 / 2, 5 / 2]] [] INTERP_METH.linear
    EXTRAP_METH.hold [[1 / 2, 5 / 2]]
    (by simp [conditionArgs, namedDimCount, buildArgs, kwLookup, broadcastOk,
      maxLen, argLen, argToList, mesh1ex])

/-- C7 counterexample: on a 2-D grid the query `([0], [0, 0, 1])` has
broadcast length `N = 3 ≠ 1`, yet the successful call returns a single
scalar, not an array of length `3`. -/
theorem scalar_result_cex :
    maxLen (buildArgs mesh2ex.dims [Arg.array [0], Arg.array [0, 0, 1]] [])
      = 3
    ∧ interpolationModel mesh2ex [Arg.array [0], Arg.array [0, 0, 1]] []
        INTERP_METH.linear EXTRAP_METH.hold = Except.ok (Sum.inl 0)
    ∧ ¬ ∃ l : List ℚ,
        interpolationModel mesh2ex [Arg.array [0], Arg.array [0, 0, 1]] []
          INTERP_METH.linear EXTRAP_METH.hold = Except.ok (Sum.inr l) := by
  have h : conditionArgs mesh2ex [Arg.array [0], Arg.array [0, 0, 1]] [] =
      Except.ok [[0], [0, 0, 1]] := by
    simp [conditionArgs, namedDimCount, buildArgs, kwLookup, broadcastOk,
      maxLen, argLen, argToList, mesh2ex]
  have hval : interpolationModel mesh2ex [Arg.array [0], Arg.array [0, 0, 1]]
      [] INTERP_METH.linear EXTRAP_METH.hold = Except.ok (Sum.inl 0) := by
    rw [interpolationModel, h]
    simp [Except.map, evalPoints, packResult, NDT_eval, combineDim, effCoord,
      effMeth, outOfRange, lastBp, clampCoord, lowIdx, holdIdx, fracPos, nearIdx,
      bracketCount, mesh2ex, List.range_succ]
  refine ⟨?_, hval, ?_⟩
  · simp [maxLen, buildArgs, kwLookup, argLen, mesh2ex]
  · rintro ⟨l, hl⟩
    rw [hval] at hl
    simp at hl

/-- Mapping every entry to `1` is `np.ones_like`. -/
theorem map_one_eq_replicate (l : List ℚ) :
    l.map (fun _ => (1 : ℚ)) = List.replicate l.length 1 := by
  induction l with
  | nil => rfl
  | cons a l ih => simp [ih, List.replicate_succ]

/-- C9: the finite-difference steps of `Mesh.derivate` (which accepts no
caller-supplied steps) default to unit deltas: one step per dimension
and per query-point entry, every step equal to `1.0`. -/
theorem unit_steps (cargs : List (List ℚ)) (d : ℕ) (hd : d < cargs.length) :
    (derivSteps cargs).length = cargs.length
    ∧ (derivSteps cargs).getD d [] =
        List.replicate ((cargs.getD d []).length) (1 : ℚ) := by
  refine ⟨by simp [derivSteps], ?_⟩
  unfold derivSteps
  rw [List.getD_eq_getElem _ _ (by simpa using hd)]
  simp only [List.getElem_map, map_one_eq_replicate]
  rw [List.getD_eq_getElem _ _ hd]

/-- C9 witness: the steps for the conditioned arguments `[[5, 6], [7]]`
in dimension `1` are `[1]`. -/
theorem unit_steps_witness :
    (derivSteps [[5, 6], [7]]).length = ([[5, 6], [7]] : List (List ℚ)).length
    ∧ (derivSteps [[5, 6], [7]]).getD 1 [] =
        List.replicate ((([[5, 6], [7]] : List (List ℚ)).getD 1 []).length)
          (1 : ℚ) :=
  unit_steps [[5, 6], [7]] 1 (by decide)

/-- The head default equals the zeroth `getD`. -/
theorem headD_eq_getD_zero (bp : List ℚ) : bp.headD 0 = bp.getD 0 0 := by
  cases bp <;> rfl

/-- Strictly sorted breakpoints are strictly increasing by index. -/
theorem getD_lt_getD (bp : List ℚ) (hs : bp.Pairwise (fun a b => a < b))
    (i j : ℕ) (hij : i < j) (hj : j < bp.length) :
    bp.getD i 0 < bp.getD j 0 := by
  rw [List.getD_eq_getElem _ _ (lt_trans hij hj), List.getD_eq_getElem _ _ hj]
  exact List.pairwise_iff_getElem.mp hs i j (lt_trans hij hj) hj hij

/-- Strictly sorted breakpoints are monotone by index. -/
theorem getD_le_getD (bp : List ℚ) (hs : bp.Pairwise (fun a b => a < b))
    (i j : ℕ) (hij : i ≤ j) (hj : j < bp.length) :
    bp.getD i 0 ≤ bp.getD j 0 := by
  rcases lt_or_eq_of_le hij with h | h
  · exact le_of_lt (getD_lt_getD bp hs i j h hj)
  · rw [h]

/-- On strictly increasing breakpoints, the bracket search run at the
`j`-th breakpoint itself counts exactly `j + 1` breakpoints below or
equal. -/
theorem bracketCount_getD (bp : List ℚ) (hs : bp.Pairwise (fun a b => a < b))
    (j : ℕ) (hj : j < bp.length) :
    bracketCount bp (bp.getD j 0) = j + 1 := by
  induction bp generalizing j with
  | nil => simp at hj
  | cons b bs ih =>
    rw [List.pairwise_cons] at hs
    obtain ⟨hb, hs'⟩ := hs
    cases j with
    | zero =>
      simp only [List.getD_cons_zero]
      unfold bracketCount
      rw [List.countP_cons]
      have h0 : bs.countP (fun x => decide (x ≤ b)) = 0 := by
        rw [List.countP_eq_zero]
        intro x hx
        simp only [decide_eq_true_eq, not_le]
        exact hb x hx
      simp [h0]
    | succ j =>
      simp only [List.getD_cons_succ]
      have hj' : j < bs.length := by simpa using hj
      unfold bracketCount at ih ⊢
      rw [List.countP_cons, ih hs' j hj']
      have hmem : bs.getD j 0 ∈ bs := by
        rw [List.getD_eq_getElem _ _ hj']
        exact List.getElem_mem hj'
      have hle : b ≤ bs.getD j 0 := le_of_lt (hb _ hmem)
      rw [if_pos (decide_eq_true hle)]

/-- Evaluating one dimension exactly at its `j`-th breakpoint selects the
`j`-th slice of the data, for linear interpolation under either
extrapolation policy (the boundary breakpoint goes through the
extrapolation path and still lands on its own sample). -/
theorem NDT_eval_cons_at_bp (em : EXTRAP_METH) (bp : List ℚ)
    (rest : List (List ℚ)) (data : List ℕ → ℚ) (pts : List ℚ) (j : ℕ)
    (hj : j < bp.length) (hs : bp.Pairwise (fun a b => a < b)) :
    NDT_eval INTERP_METH.linear em (bp :: rest) data (bp.getD j 0 :: pts) =
      NDT_eval INTERP_METH.linear em rest (fun k => data (j :: k)) pts := by
  by_cases hlen : bp.length ≤ 1
  · have hj0 : j = 0 := by omega
    subst hj0
    simp only [NDT_eval, if_pos hlen, List.tail_cons]
  · have hclamp : clampCoord bp (bp.getD j 0) = bp.getD j 0 := by
      unfold clampCoord lastBp
      rw [headD_eq_getD_zero]
      have hle1 : bp.getD 0 0 ≤ bp.getD j 0 :=
        getD_le_getD bp hs 0 j (Nat.zero_le _) hj
      have hle2 : bp.getD j 0 ≤ bp.getD (bp.length - 1) 0 :=
        getD_le_getD bp hs j (bp.length - 1) (by omega) (by omega)
      rw [min_eq_left hle2, max_eq_right hle1]
    have hxe : effCoord em bp (bp.getD j 0) = bp.getD j 0 := by
      unfold effCoord
      rw [hclamp]
      exact ite_self _
    have heffm : effMeth INTERP_METH.linear em bp (bp.getD j 0) =
        INTERP_METH.linear := by
      unfold effMeth
      exact ite_self _
    have hcnt : bracketCount bp (bp.getD j 0) = j + 1 :=
      bracketCount_getD bp hs j hj
    simp only [NDT_eval, if_neg hlen, List.headD_cons, List.tail_cons,
      heffm, hxe]
    rw [show combineDim INTERP_METH.linear bp (bp.getD j 0)
        (fun i => NDT_eval INTERP_METH.linear em rest
          (fun idx => data (i :: idx)) pts) =
      (1 - fracPos bp (bp.getD j 0)) *
          NDT_eval INTERP_METH.linear em rest
            (fun idx => data (lowIdx bp (bp.getD j 0) :: idx)) pts
        + fracPos bp (bp.getD j 0) *
          NDT_eval INTERP_METH.linear em rest
            (fun idx => data ((lowIdx bp (bp.getD j 0) + 1) :: idx)) pts
      from rfl]
    by_cases htop : j = bp.length - 1
    · have hlow : lowIdx bp (bp.getD j 0) = bp.length - 2 := by
        unfold lowIdx
        rw [hcnt]
        simp only [Nat.add_sub_cancel]
        exact Nat.min_eq_right (by omega)
      have hne : bp.getD (bp.length - 2) 0 < bp.getD (bp.length - 2 + 1) 0 :=
        getD_lt_getD bp hs (bp.length - 2) (bp.length - 2 + 1)
          (by omega) (by omega)
      have hxidx : bp.getD j 0 = bp.getD (bp.length - 2 + 1) 0 := by
        rw [htop]
        congr 1
        omega
      have hfrac : fracPos bp (bp.getD j 0) = 1 := by
        unfold fracPos
        rw [hlow, hxidx]
        exact div_self (sub_ne_zero.mpr (ne_of_gt hne))
      rw [hlow, hfrac]
      have hidx : bp.length - 2 + 1 = j := by omega
      rw [hidx]
      ring_nf
    · have hlow : lowIdx bp (bp.getD j 0) = j := by
        unfold lowIdx
        rw [hcnt]
        simp only [Nat.add_sub_cancel]
        exact Nat.min_eq_left (by omega)
      have hfrac : fracPos bp (bp.getD j 0) = 0 := by
        unfold fracPos
        rw [hlow, sub_self, zero_div]
      rw [hlow, hfrac]
      ring_nf

/-- Linear evaluation at a grid point returns the stored sample exactly. -/
theorem NDT_eval_at_grid (em : EXTRAP_METH) (bps : List (List ℚ))
    (data : List ℕ → ℚ) (idx : List ℕ)
    (h : List.Forall₂ (fun (bp : List ℚ) (j : ℕ) =>
      j < bp.length ∧ bp.Pairwise (fun a b => a < b)) bps idx) :
    NDT_eval INTERP_METH.linear em bps data
      (List.zipWith (fun (bp : List ℚ) (j : ℕ) => bp.getD j 0) bps idx) =
      data idx := by
  induction h generalizing data with
  | nil => rfl
  | @cons bp j bps' idx' hab htail ih =>
    rw [List.zipWith_cons_cons,
      NDT_eval_cons_at_bp em bp bps' data _ j hab.1 hab.2]
    exact ih (fun k => data (j :: k))

/-- One cartesian layer multiplies the lengths. -/
theorem prodCons_length (xs : List ℚ) (tails : List (List ℚ)) :
    (prodCons xs tails).length = xs.length * tails.length := by
  induction xs with
  | nil => simp [prodCons]
  | cons x xs ih =>
    simp only [prodCons, List.length_append, List.length_map, ih,
      List.length_cons]
    ring

/-- The dense mesh has one point per cell of the shape product. -/
theorem mgrid_length (args : List (List ℚ)) :
    (mgrid args).length =
      (args.map List.length).foldr (fun a b => a * b) 1 := by
  induction args with
  | nil => rfl
  | cons a rest ih => simp [mgrid, prodCons_length, ih]

/-- A valid multi-index flattens into the shape product. -/
theorem flatIdx_lt (shapes idx : List ℕ)
    (h : List.Forall₂ (fun s j => j < s) shapes idx) :
    flatIdx shapes idx < shapes.foldr (fun a b => a * b) 1 := by
  induction h with
  | nil => simp [flatIdx]
  | @cons s j ss js hab htail ih =>
    simp only [flatIdx, List.foldr_cons]
    calc j * ss.foldr (fun a b => a * b) 1 + flatIdx ss js
        < j * ss.foldr (fun a b => a * b) 1 +
            ss.foldr (fun a b => a * b) 1 := by omega
      _ = (j + 1) * ss.foldr (fun a b => a * b) 1 := by ring
      _ ≤ s * ss.foldr (fun a b => a * b) 1 :=
          Nat.mul_le_mul_right _ hab

/-- Indexing one cartesian layer at `j * |tails| + f` yields the `j`-th
head consed onto the `f`-th tail. -/
theorem prodCons_getD (xs : List ℚ) (tails : List (List ℚ)) (j f : ℕ)
    (hj : j < xs.length) (hf : f < tails.length) :
    (prodCons xs tails).getD (j * tails.length + f) [] =
      xs.getD j 0 :: tails.getD f [] := by
  induction xs generalizing j with
  | nil => simp at hj
  | cons x xs ih =>
    cases j with
    | zero =>
      simp only [prodCons, Nat.zero_mul, Nat.zero_add]
      rw [List.getD_append _ _ _ _ (by simpa using hf)]
      rw [List.getD_eq_getElem _ _ (by simpa using hf), List.getElem_map]
      rw [List.getD_eq_getElem _ _ hf]
      rfl
    | succ j =>
      have hj' : j < xs.length := by simpa using hj
      simp only [prodCons]
      rw [show (j + 1) * tails.length + f =
          (tails.map (fun t => x :: t)).length + (j * tails.length + f) by
        simp [Nat.succ_mul]
        ring]
      rw [List.getD_append_right _ _ _ _ (Nat.le_add_right _ _),
        Nat.add_sub_cancel_left]
      rw [ih j hj']
      rfl

/-- The dense mesh, indexed at the row-major flat offset of a valid
multi-index, is exactly the tuple of per-dimension coordinates. -/
theorem mgrid_getD (args : List (List ℚ)) (idx : List ℕ)
    (h : List.Forall₂ (fun (a : List ℚ) (j : ℕ) => j < a.length) args idx) :
    (mgrid args).getD (flatIdx (args.map List.length) idx) [] =
      List.zipWith (fun (a : List ℚ) (j : ℕ) => a.getD j 0) args idx := by
  induction h with
  | nil => rfl
  | @cons a j args' idx' hab htail ih =>
    simp only [mgrid, List.map_cons, flatIdx, List.zipWith_cons_cons]
    rw [show (List.map List.length args').foldr (fun a b => a * b) 1 =
        (mgrid args').length from (mgrid_length args').symm]
    rw [prodCons_getD a (mgrid args') j
      (flatIdx (args'.map List.length) idx') hab
      (by rw [mgrid_length]
          exact flatIdx_lt _ _ (List.forall₂_map_left_iff.mpr htail))]
    rw [ih]

/-- The packed resampled grid's breakpoints are the resolved coordinate
arrays. -/
theorem resamplePack_bps (m : MeshModel) (args : List (List ℚ))
    (im : INTERP_METH) (em : EXTRAP_METH) :
    (resamplePack m args im em).bps = args := rfl

/-- The packed resampled data at a valid multi-index is the evaluation
of the original grid at the corresponding mesh point. -/
theorem resamplePack_data (m : MeshModel) (args : List (List ℚ))
    (im : INTERP_METH) (em : EXTRAP_METH) (idx : List ℕ)
    (h : List.Forall₂ (fun (a : List ℚ) (j : ℕ) => j < a.length) args idx) :
    (resamplePack m args im em).data idx =
      NDT_eval im em m.bps m.data
        (List.zipWith (fun (a : List ℚ) (j : ℕ) => a.getD j 0) args idx) := by
  unfold resamplePack
  simp only []
  have hlt : flatIdx (args.map List.length) idx < (mgrid args).length := by
    rw [mgrid_length]
    exact flatIdx_lt _ _ (List.forall₂_map_left_iff.mpr h)
  rw [List.getD_eq_getElem _ _ (by simpa using hlt), List.getElem_map]
  congr 1
  rw [← mgrid_getD _ _ h, List.getD_eq_getElem _ _ hlt]

/-- When the first resolved coordinate array does not have length `1`,
`resample` succeeds and returns the packed grid. -/
theorem resampleModel_some (m : MeshModel) (pts : List (List ℚ))
    (kw : List (String × List ℚ)) (im : INTERP_METH) (em : EXTRAP_METH)
    (hfirst : ((buildResampleArgs m.dims m.bps pts kw).headD []).length ≠ 1) :
    resampleModel m pts kw im em =
      some (resamplePack m (buildResampleArgs m.dims m.bps pts kw) im em) := by
  unfold resampleModel
  rw [if_neg hfirst]

/-- With no keyword arguments, the resample argument resolution takes the
positional coordinate arrays in order and falls back to each remaining
dimension's own breakpoints. -/
theorem buildResampleArgs_no_kwargs (dims : List String)
    (bps : List (List ℚ)) (pts : List (List ℚ))
    (hlen : bps.length = dims.length) (hp : pts.length ≤ dims.length) :
    buildResampleArgs dims bps pts [] = pts ++ bps.drop pts.length := by
  induction dims generalizing bps pts with
  | nil =>
    have h1 : pts = [] := by
      cases pts with
      | nil => rfl
      | cons p ps => simp at hp
    have h2 : bps = [] := by
      cases bps with
      | nil => rfl
      | cons b bs => simp at hlen
    subst h1
    subst h2
    rfl
  | cons d ds ih =>
    cases bps with
    | nil => simp at hlen
    | cons b bs =>
      cases pts with
      | nil =>
        show b :: buildResampleArgs ds bs [] [] = [] ++ (b :: bs).drop 0
        rw [ih bs [] (by simpa using hlen) (by simp)]
        simp
      | cons p ps =>
        show p :: buildResampleArgs ds bs ps [] = (p :: ps) ++
          (b :: bs).drop (ps.length + 1)
        rw [ih bs ps (by simpa using hlen) (by simpa using hp)]
        simp

/-- A valid index paired with sortedness of every axis. -/
theorem forall₂_and_sorted (bps : List (List ℚ)) (idx : List ℕ) :
    List.Forall₂ (fun (bp : List ℚ) (j : ℕ) => j < bp.length) bps idx →
    (∀ bp ∈ bps, bp.Pairwise (fun a b => a < b)) →
    List.Forall₂ (fun (bp : List ℚ) (j : ℕ) =>
      j < bp.length ∧ bp.Pairwise (fun a b => a < b)) bps idx := by
  induction bps generalizing idx with
  | nil =>
    intro h _
    cases h
    exact List.Forall₂.nil
  | cons a l ih =>
    intro h hs
    cases h with
    | cons h1 h2 =>
      exact List.Forall₂.cons ⟨h1, hs a (List.mem_cons_self a l)⟩
        (ih _ h2 (fun bp hbp => hs bp (List.mem_cons_of_mem a hbp)))

/-- C6 (amended): provided the first resolved coordinate array does not
have length `1`, `resample` reuses the grid's breakpoints for every
dimension not given an explicit coordinate array, evaluates the grid
over the dense cartesian mesh of the resolved per-dimension
coordinates, and packs the values into a new grid whose breakpoints are
the resolved coordinates; when the first resolved coordinate array has
length `1`, the call instead fails in the result-mesh construction and
returns no grid. -/
theorem resample_dense_mesh (m : MeshModel) (pts : List (List ℚ))
    (kw : List (String × List ℚ)) (im : INTERP_METH) (em : EXTRAP_METH)
    (idx : List ℕ)
    (hfirst : ((buildResampleArgs m.dims m.bps pts kw).headD []).length ≠ 1)
    (hidx : List.Forall₂ (fun (a : List ℚ) (j : ℕ) => j < a.length)
      (buildResampleArgs m.dims m.bps pts kw) idx)
    (hlen : m.bps.length = m.dims.length)
    (hp : pts.length ≤ m.dims.length) :
    resampleModel m pts kw im em =
      some (resamplePack m (buildResampleArgs m.dims m.bps pts kw) im em)
    ∧ (resamplePack m (buildResampleArgs m.dims m.bps pts kw) im em).bps =
        buildResampleArgs m.dims m.bps pts kw
    ∧ buildResampleArgs m.dims m.bps pts [] = pts ++ m.bps.drop pts.length
    ∧ (resamplePack m (buildResampleArgs m.dims m.bps pts kw) im em).data
          idx =
        NDT_eval im em m.bps m.data
          (List.zipWith (fun (a : List ℚ) (j : ℕ) => a.getD j 0)
            (buildResampleArgs m.dims m.bps pts kw) idx) :=
  ⟨resampleModel_some m pts kw im em hfirst,
    resamplePack_bps m (buildResampleArgs m.dims m.bps pts kw) im em,
    buildResampleArgs_no_kwargs m.dims m.bps pts hlen hp,
    resamplePack_data m (buildResampleArgs m.dims m.bps pts kw) im em idx
      hidx⟩

/-- C6 counterexample: resampling the 2-D grid with the single positional
array `[1/2]` resolves the coordinates to `[[1/2], [0, 1]]` — a
length-1 first coordinate array — so `interpolation` unwraps the value
tensor to one fewer axis and the `Mesh` construction fails: no result
grid exists, contradicting the claim for this call. -/
theorem resample_dense_mesh_cex :
    buildResampleArgs mesh2ex.dims mesh2ex.bps [[1 / 2]] [] =
      [[1 / 2], [0, 1]]
    ∧ resampleModel mesh2ex [[1 / 2]] [] INTERP_METH.linear
        EXTRAP_METH.hold = none := by
  constructor
  · simp [buildResampleArgs, kwLookup, mesh2ex]
  · rfl

/-- C6 witness: resampling the 2-D grid with the positional array
`[1/4, 3/4]` (length `2`) reuses the `y` breakpoints, succeeds, and
evaluates at mesh points. -/
theorem resample_dense_mesh_witness :
    resampleModel mesh2ex [[1 / 4, 3 / 4]] [] INTERP_METH.linear
        EXTRAP_METH.hold =
      some (resamplePack mesh2ex
        (buildResampleArgs mesh2ex.dims mesh2ex.bps [[1 / 4, 3 / 4]] [])
        INTERP_METH.linear EXTRAP_METH.hold)
    ∧ (resamplePack mesh2ex
        (buildResampleArgs mesh2ex.dims mesh2ex.bps [[1 / 4, 3 / 4]] [])
        INTERP_METH.linear EXTRAP_METH.hold).bps =
      buildResampleArgs mesh2ex.dims mesh2ex.bps [[1 / 4, 3 / 4]] []
    ∧ buildResampleArgs mesh2ex.dims mesh2ex.bps [[1 / 4, 3 / 4]] [] =
        [[1 / 4, 3 / 4]] ++
          mesh2ex.bps.drop ([[1 / 4, 3 / 4]] : List (List ℚ)).length
    ∧ (resamplePack mesh2ex
        (buildResampleArgs mesh2ex.dims mesh2ex.bps [[1 / 4, 3 / 4]] [])
        INTERP_METH.linear EXTRAP_METH.hold).data [0, 1] =
        NDT_eval INTERP_METH.linear EXTRAP_METH.hold mesh2ex.bps mesh2ex.data
          (List.zipWith (fun (a : List ℚ) (j : ℕ) => a.getD j 0)
            (buildResampleArgs mesh2ex.dims mesh2ex.bps [[1 / 4, 3 / 4]] [])
            [0, 1]) :=
  resample_dense_mesh mesh2ex [[1 / 4, 3 / 4]] [] INTERP_METH.linear
    EXTRAP_METH.hold [0, 1]
    (by simp [buildResampleArgs, kwLookup, mesh2ex])
    (by simp [buildResampleArgs, kwLookup, mesh2ex]) (by simp [mesh2ex])
    (by simp [mesh2ex])

/-- C5 (amended): for every grid whose first dimension has a breakpoint
count other than `1`, `resample` with no new coordinates (hence with
the grid's own breakpoints in every dimension) succeeds and reproduces
the original breakpoints and the original data buffer exactly; a grid
whose first dimension has exactly one breakpoint instead makes the call
fail in the result-mesh construction. -/
theorem resample_roundtrip (m : MeshModel) (em : EXTRAP_METH) (idx : List ℕ)
    (hfirst : (m.bps.headD []).length ≠ 1)
    (hlen : m.bps.length = m.dims.length)
    (hsort : ∀ bp ∈ m.bps, bp.Pairwise (fun a b => a < b))
    (hidx : List.Forall₂ (fun (bp : List ℚ) (j : ℕ) => j < bp.length)
      m.bps idx) :
    resampleModel m [] [] INTERP_METH.linear em =
      some (resamplePack m m.bps INTERP_METH.linear em)
    ∧ (resamplePack m m.bps INTERP_METH.linear em).bps = m.bps
    ∧ (resamplePack m m.bps INTERP_METH.linear em).data idx = m.data idx := by
  have hargs : buildResampleArgs m.dims m.bps [] [] = m.bps := by
    rw [buildResampleArgs_no_kwargs m.dims m.bps [] hlen (by simp)]
    simp
  refine ⟨?_, rfl, ?_⟩
  · have := resampleModel_some m [] [] INTERP_METH.linear em
      (by rw [hargs]; exact hfirst)
    rw [this, hargs]
  · rw [resamplePack_data m m.bps INTERP_METH.linear em idx hidx]
    exact NDT_eval_at_grid em m.bps m.data idx
      (forall₂_and_sorted m.bps idx hidx hsort)

/-- C5 counterexample: a legal 1-D grid with the single breakpoint `[0]`
is not round-tripped: `resample()` with no new coordinates resolves the
grid's own breakpoints, the length-1 first coordinate array makes
`interpolation` unwrap the value tensor, and the `Mesh` construction
fails — no result grid (let alone one with the original data buffer)
is returned. -/
theorem resample_roundtrip_cex :
    resampleModel mesh1pt [] [] INTERP_METH.linear EXTRAP_METH.hold =
      none := by
  rfl

/-- C5 witness: the 1-D example grid (four breakpoints) round-trips
through `resample`. -/
theorem resample_roundtrip_witness :
    resampleModel mesh1ex [] [] INTERP_METH.linear EXTRAP_METH.hold =
      some (resamplePack mesh1ex mesh1ex.bps INTERP_METH.linear
        EXTRAP_METH.hold)
    ∧ (resamplePack mesh1ex mesh1ex.bps INTERP_METH.linear
        EXTRAP_METH.hold).bps = mesh1ex.bps
    ∧ (resamplePack mesh1ex mesh1ex.bps INTERP_METH.linear
        EXTRAP_METH.hold).data [2] = mesh1ex.data [2] :=
  resample_roundtrip mesh1ex EXTRAP_METH.hold [2] (by simp [mesh1ex])
    (by simp [mesh1ex])
    (by intro bp hbp
        simp only [mesh1ex, List.mem_singleton] at hbp
        subst hbp
        norm_num [List.pairwise_cons])
    (by simp [mesh1ex])
